import Mathlib

/-!
Verification of `inst/include/dplyr/DataMask.h` (dplyr data mask).

The C++ header defines the expression-evaluation mask: `DataMask_bindings`
(general grouped case, with `GroupedHybridEval`, `HybridCallbackProxy` and
`HybridCallbackWeakProxy`), its specialization for `NaturalDataFrame`, and
the `DataMask` entry point with `eval`.  We embed the state and operations
shallowly: R environments become an explicit heap of frames keyed by ids,
SEXP values become an inductive `Value`, the external evaluator `Rcpp_eval`
becomes a function parameter, and the collaborator `LazySplitSubsets`
(whose header is not part of the sources under study) is modelled from the
specification's SubsetCache contract.
-/

set_option autoImplicit false

/-- SEXP values that flow through the mask: `R_NilValue`, scalar integers
(the group metadata), materialized column subsets, and the `.data`
pronoun (which wraps an environment). -/
inductive Value : Type where
  | nil : Value
  | intV : Int → Value
  | vecV : List Int → Value
  | pronoun : Nat → Value
  deriving Repr, DecidableEq

/-- A binding in an R environment frame: either an active (lazy) binding
routed through the hybrid callback machinery (`bindrcpp` wrapped callback,
resolved by `HybridCallbackWeakProxy.get_subset`), or a plain eager value
(`Rf_defineVar` / `Environment::operator[]=`). -/
inductive Binding : Type where
  | lazyHybrid : Binding
  | value : Value → Binding
  deriving Repr, DecidableEq

/-- One R environment frame: an optional parent environment and the list of
bindings, most recent first. -/
structure EnvFrame : Type where
  parent : Option Nat
  binds : List (String × Binding)
  deriving Repr, DecidableEq

/-- The heap of R environments, keyed by id.  Fresh frames are consed at
the front, so `find?` sees the most recently allocated frame first. -/
structure REnv : Type where
  frames : List (Nat × EnvFrame)
  next : Nat
  deriving Repr, DecidableEq

def REnv.empty : REnv := ⟨[], 0⟩

/-- Allocate a fresh environment (`child_env` / `new_child` / bindr's
environment creation), returning its id. -/
def REnv.alloc (h : REnv) (parent : Option Nat) (binds : List (String × Binding)) :
    Nat × REnv :=
  (h.next, ⟨(h.next, ⟨parent, binds⟩) :: h.frames, h.next + 1⟩)

/-- Frame lookup by id (first frame with the given id). -/
def findFrame : List (Nat × EnvFrame) → Nat → Option EnvFrame
  | [], _ => none
  | p :: l, e => if p.1 = e then some p.2 else findFrame l e

def REnv.lookupFrame (h : REnv) (e : Nat) : Option EnvFrame :=
  findFrame h.frames e

/-- Association-list lookup (first entry with the given key). -/
def findPair {α : Type} : List (String × α) → String → Option α
  | [], _ => none
  | p :: l, n => if p.1 = n then some p.2 else findPair l n

/-- Drop every entry with the given key. -/
def removePair {α : Type} : List (String × α) → String → List (String × α)
  | [], _ => []
  | p :: l, n => if p.1 = n then removePair l n else p :: removePair l n

/-- Insert (or overwrite) a binding in one frame. -/
def EnvFrame.insertB (f : EnvFrame) (n : String) (b : Binding) : EnvFrame :=
  ⟨f.parent, (n, b) :: removePair f.binds n⟩

/-- Remove a binding from one frame. -/
def EnvFrame.removeB (f : EnvFrame) (n : String) : EnvFrame :=
  ⟨f.parent, removePair f.binds n⟩

/-- Model of `Rf_defineVar` / `Environment::operator[]=`: define `n` in frame `e`. -/
def REnv.setBinding (h : REnv) (e : Nat) (n : String) (b : Binding) : REnv :=
  ⟨h.frames.map (fun p => if p.1 = e then (p.1, p.2.insertB n b) else p), h.next⟩

/-- Remove binding `n` from frame `e`. -/
def REnv.removeBinding (h : REnv) (e : Nat) (n : String) : REnv :=
  ⟨h.frames.map (fun p => if p.1 = e then (p.1, p.2.removeB n) else p), h.next⟩

/-- Find a binding in one frame. -/
def EnvFrame.findB (f : EnvFrame) (n : String) : Option Binding :=
  findPair f.binds n

/-- Variable lookup along the parent chain, with explicit fuel (the chain
in a well-formed heap is acyclic; fuel bounds the walk). -/
def REnv.lookupVar : Nat → REnv → Nat → String → Option Binding
  | 0, _, _, _ => none
  | fuel + 1, h, e, n =>
    match h.lookupFrame e with
    | none => none
    | some f =>
      match f.findB n with
      | some b => some b
      | none =>
        match f.parent with
        | none => none
        | some p => REnv.lookupVar fuel h p n

/-- A `SlicingIndex`: one group, as its group ordinal (`group()`) and the
ordered row positions belonging to it (`size()` is the number of rows). -/
structure SlicingIndex : Type where
  group : Nat
  rows : List Nat
  deriving Repr, DecidableEq

def SlicingIndex.size (i : SlicingIndex) : Nat := i.rows.length

/-- Errors that can cross the mask boundary: a resolution request for an
undeclared variable (programming-contract violation) or an opaque failure
raised by the external evaluation engine. -/
inductive RError : Type where
  | undeclaredVariable : String → RError
  | engineFailure : String → RError
  deriving Repr, DecidableEq

/-- Modelled from the spec: `LazySplitSubsets` (the SubsetCache), whose
header `inst/include/dplyr/data/LazySplitSubsets.h` is not among the
sources under study.  It owns the dataset handle (`columns`, the declared
variable names with their whole-dataset column data) and the per-group
cache of materialized subsets (`materialized`). -/
structure LazySplitSubsets : Type where
  columns : List (String × List Int)
  materialized : List (String × List Int)
  deriving Repr, DecidableEq

/-- Modelled from the spec: the declared variable-name set, fixed at
construction. -/
def LazySplitSubsets.get_variable_names (s : LazySplitSubsets) : List String :=
  s.columns.map Prod.fst

/-- Modelled from the spec: `clear()` drops all cached entries. -/
def LazySplitSubsets.clear (s : LazySplitSubsets) : LazySplitSubsets :=
  ⟨s.columns, []⟩

/-- Modelled from the spec: `get(name, index, scope)`.  For a declared
name, returns the cached subset if one was materialized for the current
index, otherwise gathers the rows at the index's positions, caches the
result and installs the bound value into the host scope; fails only when
`name` is not a declared variable. -/
def LazySplitSubsets.get (s : LazySplitSubsets) (heap : REnv) (name : String)
    (idx : SlicingIndex) (env : Option Nat) :
    Except RError (Value × LazySplitSubsets × REnv) :=
  match findPair s.materialized name with
  | some cached => Except.ok (Value.vecV cached, s, heap)
  | none =>
    match findPair s.columns name with
    | none => Except.error (RError.undeclaredVariable name)
    | some col =>
      let subset := idx.rows.map (fun r => col.getD r 0)
      let s' : LazySplitSubsets := ⟨s.columns, (name, subset) :: s.materialized⟩
      let heap' := match env with
        | some e => heap.setBinding e name (Binding.value (Value.vecV subset))
        | none => heap
      Except.ok (Value.vecV subset, s', heap')

/-- Modelled from the spec: `update(index, scope)` on an index change drops
all cached entries, removing from the host scope the bindings that were
installed when those entries were materialized (a cached entry, if present,
must always be consistent with the currently-installed index). -/
def LazySplitSubsets.update (s : LazySplitSubsets) (heap : REnv)
    (env : Option Nat) : LazySplitSubsets × REnv :=
  let heap' := match env with
    | some e => s.materialized.foldl (fun h p => h.removeBinding e p.1) heap
    | none => heap
  (⟨s.columns, []⟩, heap')

/-- Modelled from the spec: `get_subset_data(i).get_data()` on the
unpartitioned fast path reads the whole-dataset column data. -/
def LazySplitSubsets.get_subset_data (s : LazySplitSubsets) (i : Nat) : List Int :=
  ((s.columns.get? i).map Prod.snd).getD []

/-- The per-group evaluator state (`GroupedHybridEval`): the borrowed
current-index pointer (`indices`, a null pointer at construction, hence
`Option`) and the environment into which materialized subsets are
installed (`mask_env`, `R_NilValue` at construction, hence `Option`). -/
structure GroupedHybridEval : Type where
  indices : Option SlicingIndex
  mask_env : Option Nat
  deriving Repr, DecidableEq

/-- State of the general (grouped/rowwise) binding layer
`DataMask_bindings<Data>`: the `GroupedHybridEval` callback, the
`LazySplitSubsets` reference, and the two environments `mask_active` and
`mask_resolved`. -/
structure DataMask_bindings : Type where
  callback : GroupedHybridEval
  subsets : LazySplitSubsets
  mask_active : Nat
  mask_resolved : Nat
  deriving Repr, DecidableEq

/-- Model of `GroupedHybridEval::get_subset`: forwards to
`subsets.get(name, get_indices(), mask_env)`.  `get_indices()`
dereferences the stored `indices` pointer; when that pointer is still
null (no `set_indices` call yet) the behavior is undefined, modelled as
`none`. -/
def GroupedHybridEval.get_subset (b : DataMask_bindings) (heap : REnv)
    (name : String) :
    Option (Except RError Value × DataMask_bindings × REnv) :=
  match b.callback.indices with
  | none => none
  | some idx =>
    match b.subsets.get heap name idx b.callback.mask_env with
    | Except.error e => some (Except.error e, b, heap)
    | Except.ok (v, su, heap') =>
      some (Except.ok v, ⟨b.callback, su, b.mask_active, b.mask_resolved⟩, heap')

/-- Model of `GroupedHybridEval::set_indices`: installs the new current index. -/
def GroupedHybridEval.set_indices (b : DataMask_bindings)
    (idx : SlicingIndex) : DataMask_bindings :=
  ⟨⟨some idx, b.callback.mask_env⟩, b.subsets, b.mask_active, b.mask_resolved⟩

/-- Model of `HybridCallbackProxy::get_subset` (the strong-forwarding variant, held
by `GroupedHybridEval` through a `shared_ptr`): simply forwards to the
enclosing `GroupedHybridEval`. -/
def HybridCallbackProxy.get_subset (b : DataMask_bindings) (heap : REnv)
    (name : String) :
    Option (Except RError Value × DataMask_bindings × REnv) :=
  GroupedHybridEval.get_subset b heap name

/-- What a call through `HybridCallbackWeakProxy` produces: the warnings
emitted, and either `some` reply (a value or a propagated error) or
`none` for undefined behavior. -/
structure ProxyReply : Type where
  warnings : List String
  reply : Option (Except RError Value)
  deriving Repr

def hybridProxyWarning : String := "Hybrid callback proxy out of scope"

/-- Model of `HybridCallbackWeakProxy::get_subset`: `alive` is whether the weak
pointer's target (the `GroupedHybridEval` owned by the mask) still exists,
i.e. whether `real.lock()` succeeds.  If it does, the call is forwarded to
the real callback; otherwise a warning is emitted and `R_NilValue` is
returned, leaving all surviving state untouched. -/
def HybridCallbackWeakProxy.get_subset (alive : Bool) (b : DataMask_bindings)
    (heap : REnv) (name : String) : ProxyReply × DataMask_bindings × REnv :=
  if alive then
    match GroupedHybridEval.get_subset b heap name with
    | none => (⟨[], none⟩, b, heap)
    | some (r, b', heap') => (⟨[], some r⟩, b', heap')
  else
    (⟨[hybridProxyWarning], some (Except.ok Value.nil)⟩, b, heap)

/-- Constructor of `DataMask_bindings<Data>` (general case): creates the
`GroupedHybridEval` (null index, nil environment), builds `mask_active`
with one lazy binding per declared variable name (each backed by the
`HybridCallbackWeakProxy` buried in the bindr closure), builds
`mask_resolved` as a child of `mask_active`, clears the subsets, and wires
the callback's environment to `mask_resolved`. -/
def DataMask_bindings.create (heap : REnv) (parent_env : Nat)
    (subsets : LazySplitSubsets) : DataMask_bindings × REnv :=
  let names := subsets.get_variable_names
  let (activeId, heap1) :=
    heap.alloc (some parent_env) (names.map (fun n => (n, Binding.lazyHybrid)))
  let (resolvedId, heap2) := heap1.alloc (some activeId) []
  let subsets1 := subsets.clear
  (⟨⟨none, some resolvedId⟩, subsets1, activeId, resolvedId⟩, heap2)

def DataMask_bindings.bottom (b : DataMask_bindings) : Nat := b.mask_resolved

def DataMask_bindings.top (b : DataMask_bindings) : Nat := b.mask_active

/-- The first statement of `DataMask_bindings::update`:
`subsets.update(indices, mask_resolved)` (clears the SubsetCache). -/
def DataMask_bindings.clearStep (b : DataMask_bindings) (heap : REnv) :
    DataMask_bindings × REnv :=
  let (su, heap') := b.subsets.update heap (some b.mask_resolved)
  (⟨b.callback, su, b.mask_active, b.mask_resolved⟩, heap')

/-- Model of `DataMask_bindings::update`: `subsets.update(indices, mask_resolved)`
then `callback->set_indices(indices)`. -/
def DataMask_bindings.update (b : DataMask_bindings) (heap : REnv)
    (idx : SlicingIndex) : DataMask_bindings × REnv :=
  let (b1, heap1) := b.clearStep heap
  (GroupedHybridEval.set_indices b1 idx, heap1)

/-- The sequence of states passed through by one `update` call: before,
after the cache clear, after the index install. -/
def DataMask_bindings.updateTrace (b : DataMask_bindings) (heap : REnv)
    (idx : SlicingIndex) : List (DataMask_bindings × REnv) :=
  let c := b.clearStep heap
  [(b, heap), c, (GroupedHybridEval.set_indices c.1 idx, c.2)]

/-- State of the specialization `DataMask_bindings<NaturalDataFrame>`:
a single flat environment. -/
structure NaturalDataMask_bindings : Type where
  mask_bindings : Nat
  deriving Repr, DecidableEq

/-- Constructor of `DataMask_bindings<NaturalDataFrame>`: creates a child
environment of the parent and eagerly defines, for each declared variable
name, the whole-dataset column data (`Rf_defineVar(names[i],
subsets.get_subset_data(i).get_data(), mask_bindings)`; the loop over
`i < names.size()` with `names[i]` and `get_subset_data(i)` is the fold
over the name/column pairs). -/
def NaturalDataMask_bindings.create (heap : REnv) (parent_env : Nat)
    (subsets : LazySplitSubsets) : NaturalDataMask_bindings × REnv :=
  let (envId, heap1) := heap.alloc (some parent_env) []
  let heap2 := subsets.columns.foldl
    (fun h p => h.setBinding envId p.1 (Binding.value (Value.vecV p.2))) heap1
  (⟨envId⟩, heap2)

/-- Model of `DataMask_bindings<NaturalDataFrame>::update`: a no-op. -/
def NaturalDataMask_bindings.update (b : NaturalDataMask_bindings)
    (_ : SlicingIndex) : NaturalDataMask_bindings := b

def NaturalDataMask_bindings.bottom (b : NaturalDataMask_bindings) : Nat :=
  b.mask_bindings

def NaturalDataMask_bindings.top (b : NaturalDataMask_bindings) : Nat :=
  b.mask_bindings

/-- Expressions are opaque to the mask (the external engine interprets
them); we carry them as strings. -/
abbrev RExpr := String

/-- The external evaluation engine (`Rcpp_eval`): a black box receiving an
expression and the overscope environment, returning a value or raising an
error, possibly with side effects on the environment heap. -/
abbrev Engine := RExpr → Nat → REnv → Except RError Value × REnv

/-- State of `DataMask<Data>` (general case): the binding layer plus the
overscope (the rlang data mask built from `bottom()`, `top()`). -/
structure DataMask : Type where
  bindings : DataMask_bindings
  overscope : Nat
  deriving Repr, DecidableEq

def groupSizeName : String := "..group_size"

def groupNumberName : String := "..group_number"

def dataPronounName : String := ".data"

/-- Constructor of `DataMask<Data>`: builds the binding layer, the
overscope `new_data_mask(bindings.bottom(), bindings.top(), env)` (a fresh
environment chained on `bottom()`), and installs the `.data` pronoun
backed by `bindings.top()`. -/
def DataMask.create (heap : REnv) (subsets : LazySplitSubsets) (env : Nat) :
    DataMask × REnv :=
  let (b, heap1) := DataMask_bindings.create heap env subsets
  let (osId, heap2) := heap1.alloc (some b.bottom) []
  let heap3 := heap2.setBinding osId dataPronounName
    (Binding.value (Value.pronoun b.top))
  (⟨b, osId⟩, heap3)

/-- The part of `DataMask::eval` that precedes the call to the external
engine: `bindings.update(indices)` followed by the two metadata writes
`overscope["..group_size"] = indices.size()` and
`overscope["..group_number"] = indices.group() + 1`. -/
def DataMask.evalPrep (m : DataMask) (heap : REnv) (idx : SlicingIndex) :
    DataMask × REnv :=
  let (b1, heap1) := m.bindings.update heap idx
  let heap2 := heap1.setBinding m.overscope groupSizeName
    (Binding.value (Value.intV (idx.size : Int)))
  let heap3 := heap2.setBinding m.overscope groupNumberName
    (Binding.value (Value.intV ((idx.group : Int) + 1)))
  (⟨b1, m.overscope⟩, heap3)

/-- Model of `DataMask::eval`: update the bindings and the data context variables,
then evaluate the call in the overscope, returning the engine's result
verbatim. -/
def DataMask.eval (engine : Engine) (m : DataMask) (heap : REnv)
    (expr : RExpr) (idx : SlicingIndex) :
    Except RError Value × DataMask × REnv :=
  let (m1, heap1) := m.evalPrep heap idx
  let (res, heap2) := engine expr m1.overscope heap1
  (res, m1, heap2)

/-- State of `DataMask<NaturalDataFrame>`. -/
structure NaturalDataMask : Type where
  bindings : NaturalDataMask_bindings
  overscope : Nat
  deriving Repr, DecidableEq

/-- Constructor of `DataMask<NaturalDataFrame>`: same template body as the
general case, instantiated with the single-environment binding layer. -/
def NaturalDataMask.create (heap : REnv) (subsets : LazySplitSubsets) (env : Nat) :
    NaturalDataMask × REnv :=
  let (b, heap1) := NaturalDataMask_bindings.create heap env subsets
  let (osId, heap2) := heap1.alloc (some b.bottom) []
  let heap3 := heap2.setBinding osId dataPronounName
    (Binding.value (Value.pronoun b.top))
  (⟨b, osId⟩, heap3)

/-- Pre-engine part of `DataMask<NaturalDataFrame>::eval`: the no-op
`bindings.update(indices)` followed by the two metadata writes, computed
from the index argument. -/
def NaturalDataMask.evalPrep (m : NaturalDataMask) (heap : REnv)
    (idx : SlicingIndex) : NaturalDataMask × REnv :=
  let b1 := m.bindings.update idx
  let heap2 := heap.setBinding m.overscope groupSizeName
    (Binding.value (Value.intV (idx.size : Int)))
  let heap3 := heap2.setBinding m.overscope groupNumberName
    (Binding.value (Value.intV ((idx.group : Int) + 1)))
  (⟨b1, m.overscope⟩, heap3)

/-- Model of `DataMask<NaturalDataFrame>::eval`. -/
def NaturalDataMask.eval (engine : Engine) (m : NaturalDataMask) (heap : REnv)
    (expr : RExpr) (idx : SlicingIndex) :
    Except RError Value × NaturalDataMask × REnv :=
  let (m1, heap1) := m.evalPrep heap idx
  let (res, heap2) := engine expr m1.overscope heap1
  (res, m1, heap2)

/-- A sample external engine used for concrete witnesses: evaluates the
expression as a plain variable read through the environment chain. -/
def readVarEngine : Engine := fun expr e h =>
  match h.lookupVar (h.frames.length) e expr with
  | some (Binding.value v) => (Except.ok v, h)
  | _ => (Except.error (RError.engineFailure expr), h)


theorem findPair_removePair_ne {α : Type} (l : List (String × α)) (n m : String)
    (h : n ≠ m) : findPair (removePair l m) n = findPair l n := by
  induction l with
  | nil => rfl
  | cons a l ih =>
    by_cases hm : a.1 = m
    · simp [removePair, findPair, hm, Ne.symm h, ih]
    · by_cases hn : a.1 = n
      · simp [removePair, findPair, hm, hn, h, ih]
      · simp [removePair, findPair, hm, hn, ih]

theorem EnvFrame.findB_insertB_self (f : EnvFrame) (n : String) (b : Binding) :
    (f.insertB n b).findB n = some b := by
  simp [EnvFrame.insertB, EnvFrame.findB, findPair]

theorem EnvFrame.findB_insertB_ne (f : EnvFrame) (n m : String) (b : Binding)
    (h : n ≠ m) : (f.insertB m b).findB n = f.findB n := by
  simp [EnvFrame.insertB, EnvFrame.findB, findPair, Ne.symm h,
    findPair_removePair_ne f.binds n m h]

theorem EnvFrame.findB_removeB_ne (f : EnvFrame) (n m : String) (h : n ≠ m) :
    (f.removeB m).findB n = f.findB n := by
  simp [EnvFrame.removeB, EnvFrame.findB, findPair_removePair_ne f.binds n m h]

theorem findFrame_map_upd (l : List (Nat × EnvFrame)) (e : Nat)
    (g : EnvFrame → EnvFrame) :
    findFrame (l.map (fun p => if p.1 = e then (p.1, g p.2) else p)) e =
      (findFrame l e).map g := by
  induction l with
  | nil => rfl
  | cons a l ih =>
    by_cases ha : a.1 = e
    · simp [findFrame, ha]
    · simp [findFrame, ha, ih]

theorem findFrame_map_upd_ne (l : List (Nat × EnvFrame)) (e e' : Nat)
    (g : EnvFrame → EnvFrame) (he : e' ≠ e) :
    findFrame (l.map (fun p => if p.1 = e then (p.1, g p.2) else p)) e' =
      findFrame l e' := by
  induction l with
  | nil => rfl
  | cons a l ih =>
    by_cases ha : a.1 = e
    · simp [findFrame, ha, Ne.symm he, ih]
    · by_cases ha' : a.1 = e'
      · simp [findFrame, ha, ha', he, ih]
      · simp [findFrame, ha, ha', ih]

theorem REnv.lookupFrame_setBinding_self (h : REnv) (e : Nat) (n : String)
    (b : Binding) :
    (h.setBinding e n b).lookupFrame e =
      (h.lookupFrame e).map (fun f => f.insertB n b) := by
  simp only [REnv.setBinding, REnv.lookupFrame]
  exact findFrame_map_upd h.frames e (fun f => f.insertB n b)

theorem REnv.lookupFrame_setBinding_ne (h : REnv) (e e' : Nat) (n : String)
    (b : Binding) (he : e' ≠ e) :
    (h.setBinding e n b).lookupFrame e' = h.lookupFrame e' := by
  simp only [REnv.setBinding, REnv.lookupFrame]
  exact findFrame_map_upd_ne h.frames e e' (fun f => f.insertB n b) he

theorem REnv.lookupFrame_removeBinding_self (h : REnv) (e : Nat) (n : String) :
    (h.removeBinding e n).lookupFrame e =
      (h.lookupFrame e).map (fun f => f.removeB n) := by
  simp only [REnv.removeBinding, REnv.lookupFrame]
  exact findFrame_map_upd h.frames e (fun f => f.removeB n)

theorem REnv.lookupFrame_removeBinding_ne (h : REnv) (e e' : Nat) (n : String)
    (he : e' ≠ e) :
    (h.removeBinding e n).lookupFrame e' = h.lookupFrame e' := by
  simp only [REnv.removeBinding, REnv.lookupFrame]
  exact findFrame_map_upd_ne h.frames e e' (fun f => f.removeB n) he

theorem REnv.lookupFrame_foldl_removeBinding_ne {α : Type}
    (l : List (String × α)) (h : REnv) (e e' : Nat) (he : e' ≠ e) :
    ((l.foldl (fun h p => h.removeBinding e p.1) h).lookupFrame e') =
      h.lookupFrame e' := by
  induction l generalizing h with
  | nil => rfl
  | cons a l ih =>
    rw [List.foldl_cons, ih, REnv.lookupFrame_removeBinding_ne _ _ _ _ he]

theorem REnv.lookupFrame_foldl_removeBinding_isSome {α : Type}
    (l : List (String × α)) (h : REnv) (e e' : Nat) :
    ((l.foldl (fun h p => h.removeBinding e p.1) h).lookupFrame e').isSome =
      (h.lookupFrame e').isSome := by
  induction l generalizing h with
  | nil => rfl
  | cons a l ih =>
    by_cases he : e' = e
    · subst he
      rw [List.foldl_cons, ih, REnv.lookupFrame_removeBinding_self]
      cases h.lookupFrame e' <;> rfl
    · rw [List.foldl_cons, ih, REnv.lookupFrame_removeBinding_ne _ _ _ _ he]

theorem groupNames_ne : groupSizeName ≠ groupNumberName := by decide

/-- The heap after `DataMask_bindings::update`: only the removal of the
previously materialized bindings from `mask_resolved`. -/
theorem DataMask_bindings.update_heap (b : DataMask_bindings) (heap : REnv)
    (idx : SlicingIndex) :
    (b.update heap idx).2 =
      b.subsets.materialized.foldl
        (fun h p => h.removeBinding b.mask_resolved p.1) heap := rfl

theorem DataMask.evalPrep_metadata_reads (m : DataMask) (heap : REnv)
    (idx : SlicingIndex) (hf : (heap.lookupFrame m.overscope).isSome = true) :
    (((m.evalPrep heap idx).2.lookupFrame m.overscope).bind
        (fun f => f.findB groupSizeName) =
      some (Binding.value (Value.intV (idx.size : Int)))) ∧
    (((m.evalPrep heap idx).2.lookupFrame m.overscope).bind
        (fun f => f.findB groupNumberName) =
      some (Binding.value (Value.intV ((idx.group : Int) + 1)))) := by
  have h1 : (((m.bindings.update heap idx).2).lookupFrame m.overscope).isSome
      = true := by
    rw [DataMask_bindings.update_heap,
      REnv.lookupFrame_foldl_removeBinding_isSome]
    exact hf
  obtain ⟨f, hf1⟩ := Option.isSome_iff_exists.mp h1
  have hprep : (m.evalPrep heap idx).2 =
      (((m.bindings.update heap idx).2).setBinding m.overscope groupSizeName
        (Binding.value (Value.intV (idx.size : Int)))).setBinding m.overscope
        groupNumberName (Binding.value (Value.intV ((idx.group : Int) + 1))) := rfl
  rw [hprep, REnv.lookupFrame_setBinding_self, REnv.lookupFrame_setBinding_self,
    hf1]
  refine ⟨?_, ?_⟩
  · simp [EnvFrame.findB_insertB_ne _ _ _ _ groupNames_ne,
      EnvFrame.findB_insertB_self]
  · simp [EnvFrame.findB_insertB_self]

theorem naturalPrep_metadata_reads (m : NaturalDataMask)
    (heap : REnv) (idx : SlicingIndex)
    (hf : (heap.lookupFrame m.overscope).isSome = true) :
    (((m.evalPrep heap idx).2.lookupFrame m.overscope).bind
        (fun f => f.findB groupSizeName) =
      some (Binding.value (Value.intV (idx.size : Int)))) ∧
    (((m.evalPrep heap idx).2.lookupFrame m.overscope).bind
        (fun f => f.findB groupNumberName) =
      some (Binding.value (Value.intV ((idx.group : Int) + 1)))) := by
  obtain ⟨f, hf1⟩ := Option.isSome_iff_exists.mp hf
  have hprep : (m.evalPrep heap idx).2 =
      (heap.setBinding m.overscope groupSizeName
        (Binding.value (Value.intV (idx.size : Int)))).setBinding m.overscope
        groupNumberName (Binding.value (Value.intV ((idx.group : Int) + 1))) := rfl
  rw [hprep, REnv.lookupFrame_setBinding_self, REnv.lookupFrame_setBinding_self,
    hf1]
  refine ⟨?_, ?_⟩
  · simp [EnvFrame.findB_insertB_ne _ _ _ _ groupNames_ne,
      EnvFrame.findB_insertB_self]
  · simp [EnvFrame.findB_insertB_self]

/-! Concrete fixtures used by the witnesses. -/

def sampleSubsets : LazySplitSubsets :=
  ⟨[("x", [10, 20, 30, 40, 50]), ("y", [1, 2, 3, 4, 5])], []⟩

def sampleIdx : SlicingIndex := ⟨0, [0, 2]⟩

def baseEnv : Nat × REnv := REnv.empty.alloc none []

def sampleMaskB : DataMask_bindings × REnv :=
  DataMask_bindings.create baseEnv.2 baseEnv.1 sampleSubsets

def sampleUpdated : DataMask_bindings × REnv :=
  DataMask_bindings.update sampleMaskB.1 sampleMaskB.2 sampleIdx

def sampleResolved : Except RError Value × DataMask_bindings × REnv :=
  (GroupedHybridEval.get_subset sampleUpdated.1 sampleUpdated.2 "x").getD
    (Except.error (RError.engineFailure ""), sampleUpdated.1, sampleUpdated.2)

/-- C1: if `HybridCallbackWeakProxy::get_subset` is invoked after the
mask (the weak pointer's target) has been destroyed, the call does not
fail or crash: it emits the non-fatal warning and returns `R_NilValue`,
touching no surviving state; and only when the upgrade succeeds is the
request forwarded to the real resolver (`GroupedHybridEval`). -/
theorem C1_weak_proxy_safe_degradation :
    (∀ (b : DataMask_bindings) (heap : REnv) (name : String),
      HybridCallbackWeakProxy.get_subset false b heap name =
        (⟨[hybridProxyWarning], some (Except.ok Value.nil)⟩, b, heap)) ∧
    (∀ (b : DataMask_bindings) (heap : REnv) (name : String)
      (r : Except RError Value) (b' : DataMask_bindings) (heap' : REnv),
      GroupedHybridEval.get_subset b heap name = some (r, b', heap') →
      HybridCallbackWeakProxy.get_subset true b heap name =
        (⟨[], some r⟩, b', heap')) := by
  refine ⟨fun b heap name => rfl, fun b heap name r b' heap' h => ?_⟩
  simp [HybridCallbackWeakProxy.get_subset, h]

theorem C1_witness :
    GroupedHybridEval.get_subset sampleUpdated.1 sampleUpdated.2 "x" =
      some (sampleResolved.1, sampleResolved.2.1, sampleResolved.2.2) ∧
    HybridCallbackWeakProxy.get_subset false sampleUpdated.1 sampleUpdated.2 "x" =
      (⟨[hybridProxyWarning], some (Except.ok Value.nil)⟩,
        sampleUpdated.1, sampleUpdated.2) ∧
    HybridCallbackWeakProxy.get_subset true sampleUpdated.1 sampleUpdated.2 "x" =
      (⟨[], some sampleResolved.1⟩, sampleResolved.2.1, sampleResolved.2.2) :=
  ⟨by rfl,
    C1_weak_proxy_safe_degradation.1 sampleUpdated.1 sampleUpdated.2 "x",
    C1_weak_proxy_safe_degradation.2 sampleUpdated.1 sampleUpdated.2 "x"
      sampleResolved.1 sampleResolved.2.1 sampleResolved.2.2 (by rfl)⟩

/-- C2: `DataMask_bindings::update` is exactly the cache clear followed by
the index install; after it, the cache is empty and the new index is
current; in the intermediate state the cache is already cleared while the
old index is still installed; and no state of the update trace carries an
index different from the pre-update one together with a non-empty cache. -/
theorem C2_update_clear_then_install :
    ∀ (b : DataMask_bindings) (heap : REnv) (idx : SlicingIndex),
      (DataMask_bindings.update b heap idx =
        (GroupedHybridEval.set_indices (b.clearStep heap).1 idx,
          (b.clearStep heap).2)) ∧
      (b.clearStep heap).1.subsets.materialized = [] ∧
      (b.clearStep heap).1.callback.indices = b.callback.indices ∧
      ((DataMask_bindings.update b heap idx).1.callback.indices = some idx) ∧
      ((DataMask_bindings.update b heap idx).1.subsets.materialized = []) ∧
      ∀ t ∈ DataMask_bindings.updateTrace b heap idx,
        t.1.callback.indices ≠ b.callback.indices →
          t.1.subsets.materialized = [] := by
  intro b heap idx
  refine ⟨rfl, rfl, rfl, rfl, rfl, ?_⟩
  intro t ht hne
  simp only [DataMask_bindings.updateTrace, List.mem_cons,
    List.not_mem_nil, or_false] at ht
  rcases ht with h1 | h2 | h3
  · exact absurd rfl (h1 ▸ hne)
  · exact absurd rfl (h2 ▸ hne)
  · rw [h3]; rfl

theorem C2_witness :
    (DataMask_bindings.update sampleMaskB.1 sampleMaskB.2 sampleIdx).1.callback.indices
      = some sampleIdx ∧
    (DataMask_bindings.update sampleMaskB.1 sampleMaskB.2 sampleIdx).1.subsets.materialized
      = [] ∧
    (sampleMaskB.1.clearStep sampleMaskB.2).1.callback.indices =
      sampleMaskB.1.callback.indices ∧
    (GroupedHybridEval.set_indices (sampleMaskB.1.clearStep sampleMaskB.2).1
      sampleIdx).subsets.materialized = [] :=
  ⟨(C2_update_clear_then_install sampleMaskB.1 sampleMaskB.2 sampleIdx).2.2.2.1,
    (C2_update_clear_then_install sampleMaskB.1 sampleMaskB.2 sampleIdx).2.2.2.2.1,
    (C2_update_clear_then_install sampleMaskB.1 sampleMaskB.2 sampleIdx).2.2.1,
    (C2_update_clear_then_install sampleMaskB.1 sampleMaskB.2
        sampleIdx).2.2.2.2.2
      (GroupedHybridEval.set_indices (sampleMaskB.1.clearStep sampleMaskB.2).1
          sampleIdx,
        (sampleMaskB.1.clearStep sampleMaskB.2).2)
      (by decide) (by decide)⟩

/-- C4: a successful resolution through `GroupedHybridEval::get_subset`
reads the index installed at the moment of resolution (through the stored
reference) and forwards to `subsets.get` with that current index and the
callback's resolved-tier scope (`mask_env`); resolution never changes the
installed index, so a nested re-entrant resolution of the same group
resolves against the same index. -/
theorem C4_resolution_uses_current_index :
    ∀ (b : DataMask_bindings) (heap : REnv) (name : String)
      (idx : SlicingIndex),
      b.callback.indices = some idx →
      (GroupedHybridEval.get_subset b heap name =
        some (match b.subsets.get heap name idx b.callback.mask_env with
          | Except.error e => (Except.error e, b, heap)
          | Except.ok (v, su, heap') =>
            (Except.ok v, ⟨b.callback, su, b.mask_active, b.mask_resolved⟩,
              heap'))) ∧
      (∀ (r : Except RError Value) (b' : DataMask_bindings) (heap' : REnv),
        GroupedHybridEval.get_subset b heap name = some (r, b', heap') →
        b'.callback.indices = some idx) := by
  intro b heap name idx h
  have key : GroupedHybridEval.get_subset b heap name =
      some (match b.subsets.get heap name idx b.callback.mask_env with
        | Except.error e => (Except.error e, b, heap)
        | Except.ok (v, su, heap') =>
          (Except.ok v, ⟨b.callback, su, b.mask_active, b.mask_resolved⟩,
            heap')) := by
    rw [GroupedHybridEval.get_subset, h]
    rcases hg : b.subsets.get heap name idx b.callback.mask_env with e | ⟨v, su, hp⟩ <;>
      simp [hg]
  refine ⟨key, ?_⟩
  intro r b' heap' hr
  rw [key] at hr
  rcases hg : b.subsets.get heap name idx b.callback.mask_env with e | ⟨v, su, hp⟩ <;>
    rw [hg] at hr <;> simp only [Option.some.injEq, Prod.mk.injEq] at hr
  · rw [← hr.2.1]
    exact h
  · rw [← hr.2.1]
    exact h

theorem C4_witness :
    GroupedHybridEval.get_subset sampleUpdated.1 sampleUpdated.2 "x" =
      some (match sampleUpdated.1.subsets.get sampleUpdated.2 "x" sampleIdx
          sampleUpdated.1.callback.mask_env with
        | Except.error e => (Except.error e, sampleUpdated.1, sampleUpdated.2)
        | Except.ok (v, su, heap') =>
          (Except.ok v, ⟨sampleUpdated.1.callback, su,
            sampleUpdated.1.mask_active, sampleUpdated.1.mask_resolved⟩,
            heap')) ∧
    sampleResolved.2.1.callback.indices = some sampleIdx :=
  ⟨(C4_resolution_uses_current_index sampleUpdated.1 sampleUpdated.2 "x"
      sampleIdx (by decide)).1,
    (C4_resolution_uses_current_index sampleUpdated.1 sampleUpdated.2 "x"
      sampleIdx (by decide)).2 sampleResolved.1 sampleResolved.2.1
      sampleResolved.2.2 (by rfl)⟩

/-- C8: whatever the external engine returns — including an error — is
returned by `eval` verbatim: the mask neither inspects, wraps, recovers
from, nor retries the engine's outcome; and the mask state is not left
torn, since the next `update` reinstalls a clean cache and index. -/
theorem C8_engine_failure_propagation :
    (∀ (engine : Engine) (m : DataMask) (heap : REnv) (expr : RExpr)
      (idx : SlicingIndex),
      (DataMask.eval engine m heap expr idx).1 =
        (engine expr m.overscope (m.evalPrep heap idx).2).1) ∧
    (∀ (err : RError) (m : DataMask) (heap : REnv) (expr : RExpr)
      (idx : SlicingIndex),
      (DataMask.eval (fun _ _ h => (Except.error err, h)) m heap expr idx).1 =
        Except.error err) ∧
    (∀ (b : DataMask_bindings) (heap : REnv) (idx : SlicingIndex),
      (b.update heap idx).1.subsets.materialized = [] ∧
      (b.update heap idx).1.callback.indices = some idx) :=
  ⟨fun _ _ _ _ _ => rfl, fun _ _ _ _ _ => rfl, fun _ _ _ => ⟨rfl, rfl⟩⟩

/-- C9: in the general binding layer the current-index reference starts
as a null pointer and only `update` (via `set_indices`) installs one:
resolution through `GroupedHybridEval::get_subset` before the first
`update` dereferences the null pointer (undefined, modelled as `none`),
and a defined resolution implies an index has been installed. -/
theorem C9_resolution_requires_update :
    (∀ (heap : REnv) (parent : Nat) (subs : LazySplitSubsets),
      (DataMask_bindings.create heap parent subs).1.callback.indices = none) ∧
    (∀ (b : DataMask_bindings) (heap : REnv) (name : String),
      b.callback.indices = none →
      GroupedHybridEval.get_subset b heap name = none) ∧
    (∀ (b : DataMask_bindings) (heap : REnv) (idx : SlicingIndex),
      (b.update heap idx).1.callback.indices = some idx) ∧
    (∀ (b : DataMask_bindings) (heap : REnv) (name : String)
      (res : Except RError Value × DataMask_bindings × REnv),
      GroupedHybridEval.get_subset b heap name = some res →
      b.callback.indices.isSome = true) := by
  refine ⟨fun _ _ _ => rfl, fun b heap name h => ?_, fun _ _ _ => rfl,
    fun b heap name res h => ?_⟩
  · rw [GroupedHybridEval.get_subset, h]
  · rcases hi : b.callback.indices with _ | idx
    · rw [GroupedHybridEval.get_subset, hi] at h
      exact absurd h (by simp)
    · rfl

theorem C9_witness :
    sampleMaskB.1.callback.indices = none ∧
    GroupedHybridEval.get_subset sampleMaskB.1 sampleMaskB.2 "x" = none ∧
    (DataMask_bindings.update sampleMaskB.1 sampleMaskB.2 sampleIdx).1.callback.indices
      = some sampleIdx ∧
    sampleUpdated.1.callback.indices.isSome = true :=
  ⟨C9_resolution_requires_update.1 baseEnv.2 baseEnv.1 sampleSubsets,
    C9_resolution_requires_update.2.1 sampleMaskB.1 sampleMaskB.2 "x" (by decide),
    C9_resolution_requires_update.2.2.1 sampleMaskB.1 sampleMaskB.2 sampleIdx,
    C9_resolution_requires_update.2.2.2 sampleUpdated.1 sampleUpdated.2 "x"
      (sampleResolved.1, sampleResolved.2.1, sampleResolved.2.2) (by rfl)⟩

/-- The overscope frame's existence is preserved by `evalPrep`. -/
theorem DataMask.evalPrep_lookupFrame_isSome (m : DataMask) (heap : REnv)
    (idx : SlicingIndex) :
    ((m.evalPrep heap idx).2.lookupFrame m.overscope).isSome =
      (heap.lookupFrame m.overscope).isSome := by
  have hprep : (m.evalPrep heap idx).2 =
      (((m.bindings.update heap idx).2).setBinding m.overscope groupSizeName
        (Binding.value (Value.intV (idx.size : Int)))).setBinding m.overscope
        groupNumberName (Binding.value (Value.intV ((idx.group : Int) + 1))) := rfl
  rw [hprep, REnv.lookupFrame_setBinding_self, REnv.lookupFrame_setBinding_self,
    DataMask_bindings.update_heap, ← REnv.lookupFrame_foldl_removeBinding_isSome
      m.bindings.subsets.materialized heap m.bindings.mask_resolved m.overscope]
  cases (m.bindings.subsets.materialized.foldl
      (fun h p => h.removeBinding m.bindings.mask_resolved p.1) heap).lookupFrame
      m.overscope <;> rfl

/-- The map `evalPrep` leaves every overscope binding other than the two group
metadata scalars unchanged (the overscope is a scope distinct from
`mask_resolved`, where `update` drops the materialized bindings). -/
theorem DataMask.evalPrep_preserves (m : DataMask) (heap : REnv)
    (idx : SlicingIndex) (n : String) (h1 : n ≠ groupSizeName)
    (h2 : n ≠ groupNumberName)
    (h3 : m.overscope ≠ m.bindings.mask_resolved) :
    ((m.evalPrep heap idx).2.lookupFrame m.overscope).bind
        (fun f => f.findB n) =
      (heap.lookupFrame m.overscope).bind (fun f => f.findB n) := by
  have hprep : (m.evalPrep heap idx).2 =
      (((m.bindings.update heap idx).2).setBinding m.overscope groupSizeName
        (Binding.value (Value.intV (idx.size : Int)))).setBinding m.overscope
        groupNumberName (Binding.value (Value.intV ((idx.group : Int) + 1))) := rfl
  rw [hprep, REnv.lookupFrame_setBinding_self, REnv.lookupFrame_setBinding_self,
    DataMask_bindings.update_heap,
    REnv.lookupFrame_foldl_removeBinding_ne _ heap _ _ h3]
  cases heap.lookupFrame m.overscope with
  | none => rfl
  | some f =>
    exact (EnvFrame.findB_insertB_ne _ n groupNumberName _ h2).trans
      (EnvFrame.findB_insertB_ne f n groupSizeName _ h1)

def sampleMask : DataMask × REnv := DataMask.create baseEnv.2 sampleSubsets baseEnv.1

/-- C3: `eval(expr, index)` first runs `update(index)` on the binding
layer, then writes exactly the two scalar metadata bindings — the group's
row count under `..group_size` and the 1-based ordinal under
`..group_number` — into the overscope, and returns the external engine's
result verbatim; in particular for a group with row positions `[2,5,7]`
and group index `i` the metadata variables read as `3` and `i + 1`. -/
theorem C3_eval_order_and_metadata :
    (∀ (engine : Engine) (m : DataMask) (heap : REnv) (expr : RExpr)
      (idx : SlicingIndex),
      DataMask.eval engine m heap expr idx =
        ((engine expr m.overscope (m.evalPrep heap idx).2).1,
          ⟨(m.bindings.update heap idx).1, m.overscope⟩,
          (engine expr m.overscope (m.evalPrep heap idx).2).2)) ∧
    (∀ (m : DataMask) (heap : REnv) (idx : SlicingIndex),
      (m.evalPrep heap idx).2 =
        (((m.bindings.update heap idx).2).setBinding m.overscope groupSizeName
            (Binding.value (Value.intV (idx.size : Int)))).setBinding
          m.overscope groupNumberName
          (Binding.value (Value.intV ((idx.group : Int) + 1)))) ∧
    (∀ (m : DataMask) (heap : REnv) (idx : SlicingIndex),
      (heap.lookupFrame m.overscope).isSome = true →
      (((m.evalPrep heap idx).2.lookupFrame m.overscope).bind
          (fun f => f.findB groupSizeName) =
        some (Binding.value (Value.intV (idx.size : Int)))) ∧
      (((m.evalPrep heap idx).2.lookupFrame m.overscope).bind
          (fun f => f.findB groupNumberName) =
        some (Binding.value (Value.intV ((idx.group : Int) + 1))))) ∧
    (∀ (m : DataMask) (heap : REnv) (i : Nat),
      (heap.lookupFrame m.overscope).isSome = true →
      (((m.evalPrep heap ⟨i, [2, 5, 7]⟩).2.lookupFrame m.overscope).bind
          (fun f => f.findB groupSizeName) =
        some (Binding.value (Value.intV 3))) ∧
      (((m.evalPrep heap ⟨i, [2, 5, 7]⟩).2.lookupFrame m.overscope).bind
          (fun f => f.findB groupNumberName) =
        some (Binding.value (Value.intV ((i : Int) + 1))))) := by
  refine ⟨fun _ _ _ _ _ => rfl, fun _ _ _ => rfl,
    fun m heap idx hf => DataMask.evalPrep_metadata_reads m heap idx hf,
    fun m heap i hf => ?_⟩
  exact DataMask.evalPrep_metadata_reads m heap ⟨i, [2, 5, 7]⟩ hf

theorem C3_witness :
    (sampleMask.2.lookupFrame sampleMask.1.overscope).isSome = true ∧
    ((sampleMask.1.evalPrep sampleMask.2 ⟨4, [2, 5, 7]⟩).2.lookupFrame
        sampleMask.1.overscope).bind (fun f => f.findB groupSizeName) =
      some (Binding.value (Value.intV 3)) ∧
    ((sampleMask.1.evalPrep sampleMask.2 ⟨4, [2, 5, 7]⟩).2.lookupFrame
        sampleMask.1.overscope).bind (fun f => f.findB groupNumberName) =
      some (Binding.value (Value.intV 5)) :=
  ⟨by decide,
    (C3_eval_order_and_metadata.2.2.2 sampleMask.1 sampleMask.2 4 (by decide)).1,
    (C3_eval_order_and_metadata.2.2.2 sampleMask.1 sampleMask.2 4 (by decide)).2⟩

/-- C5: constructing the general binding layer builds `mask_active` with
one lazy (weak-proxy-backed) binding per declared variable name under the
given parent, builds `mask_resolved` as a fresh child of `mask_active`,
immediately clears the SubsetCache, and wires the callback's target scope
(`mask_env`) to `mask_resolved`; afterwards `bottom()` is `mask_resolved`
and `top()` is `mask_active`. -/
theorem C5_bindings_construction :
    ∀ (heap : REnv) (parent : Nat) (subs : LazySplitSubsets),
      ((DataMask_bindings.create heap parent subs).2.lookupFrame
          (DataMask_bindings.create heap parent subs).1.mask_active =
        some ⟨some parent,
          subs.get_variable_names.map (fun n => (n, Binding.lazyHybrid))⟩) ∧
      ((DataMask_bindings.create heap parent subs).2.lookupFrame
          (DataMask_bindings.create heap parent subs).1.mask_resolved =
        some ⟨some (DataMask_bindings.create heap parent subs).1.mask_active,
          []⟩) ∧
      ((DataMask_bindings.create heap parent subs).1.mask_resolved ≠
        (DataMask_bindings.create heap parent subs).1.mask_active) ∧
      ((DataMask_bindings.create heap parent subs).1.subsets = subs.clear) ∧
      ((DataMask_bindings.create heap parent subs).1.subsets.materialized
        = []) ∧
      ((DataMask_bindings.create heap parent subs).1.callback.mask_env =
        some (DataMask_bindings.create heap parent subs).1.mask_resolved) ∧
      ((DataMask_bindings.create heap parent subs).1.bottom =
        (DataMask_bindings.create heap parent subs).1.mask_resolved) ∧
      ((DataMask_bindings.create heap parent subs).1.top =
        (DataMask_bindings.create heap parent subs).1.mask_active) := by
  intro heap parent subs
  refine ⟨?_, ?_, ?_, rfl, rfl, rfl, rfl, rfl⟩
  · simp [DataMask_bindings.create, REnv.alloc, REnv.lookupFrame, findFrame,
      Nat.succ_ne_self]
  · simp [DataMask_bindings.create, REnv.alloc, REnv.lookupFrame, findFrame]
  · simp [DataMask_bindings.create, REnv.alloc]

theorem C5_witness :
    sampleMaskB.2.lookupFrame sampleMaskB.1.mask_active =
      some ⟨some baseEnv.1,
        sampleSubsets.get_variable_names.map
          (fun n => (n, Binding.lazyHybrid))⟩ ∧
    sampleMaskB.2.lookupFrame sampleMaskB.1.mask_resolved =
      some ⟨some sampleMaskB.1.mask_active, []⟩ ∧
    sampleMaskB.1.callback.mask_env = some sampleMaskB.1.mask_resolved ∧
    sampleMaskB.1.bottom = sampleMaskB.1.mask_resolved ∧
    sampleMaskB.1.top = sampleMaskB.1.mask_active :=
  ⟨(C5_bindings_construction baseEnv.2 baseEnv.1 sampleSubsets).1,
    (C5_bindings_construction baseEnv.2 baseEnv.1 sampleSubsets).2.1,
    (C5_bindings_construction baseEnv.2 baseEnv.1 sampleSubsets).2.2.2.2.2.1,
    (C5_bindings_construction baseEnv.2 baseEnv.1 sampleSubsets).2.2.2.2.2.2.1,
    (C5_bindings_construction baseEnv.2 baseEnv.1 sampleSubsets).2.2.2.2.2.2.2⟩

theorem REnv.lookupFrame_foldl_setBinding (l : List (String × List Int))
    (h : REnv) (e : Nat) :
    ((l.foldl (fun h p =>
        h.setBinding e p.1 (Binding.value (Value.vecV p.2))) h).lookupFrame e) =
      (h.lookupFrame e).map (fun f => l.foldl
        (fun f p => f.insertB p.1 (Binding.value (Value.vecV p.2))) f) := by
  induction l generalizing h with
  | nil =>
    simp only [List.foldl_nil]
    cases h.lookupFrame e <;> rfl
  | cons a l ih =>
    rw [List.foldl_cons, ih, REnv.lookupFrame_setBinding_self]
    cases h.lookupFrame e <;> rfl

theorem frameFold_findB_not_mem (l : List (String × List Int)) (f : EnvFrame)
    (n : String) (hn : n ∉ l.map Prod.fst) :
    (l.foldl (fun f p =>
      f.insertB p.1 (Binding.value (Value.vecV p.2))) f).findB n = f.findB n := by
  induction l generalizing f with
  | nil => rfl
  | cons a l ih =>
    simp only [List.map_cons, List.mem_cons, not_or] at hn
    rw [List.foldl_cons, ih _ hn.2]
    exact EnvFrame.findB_insertB_ne f n a.1 _ hn.1

theorem frameFold_findB_mem (l : List (String × List Int)) (f : EnvFrame)
    (n : String) (col : List Int) (hmem : (n, col) ∈ l)
    (hnd : (l.map Prod.fst).Nodup) :
    (l.foldl (fun f p =>
        f.insertB p.1 (Binding.value (Value.vecV p.2))) f).findB n =
      some (Binding.value (Value.vecV col)) := by
  induction l generalizing f with
  | nil => cases hmem
  | cons a l ih =>
    simp only [List.map_cons, List.nodup_cons] at hnd
    rcases List.mem_cons.mp hmem with heq | htail
    · subst heq
      rw [List.foldl_cons, frameFold_findB_not_mem l _ n hnd.1]
      exact EnvFrame.findB_insertB_self f n _
    · rw [List.foldl_cons]
      exact ih _ htail hnd.2

/-- C6: in the single-group (`NaturalDataFrame`) specialization `update`
is a no-op for every index, `bottom()` and `top()` return the same single
scope, and construction bound every declared variable name eagerly and
directly (as a plain value binding of the whole column) into that
scope. -/
theorem C6_natural_single_scope :
    (∀ (b : NaturalDataMask_bindings) (idx : SlicingIndex), b.update idx = b) ∧
    (∀ (b : NaturalDataMask_bindings), b.bottom = b.top) ∧
    (∀ (heap : REnv) (parent : Nat) (subs : LazySplitSubsets),
      subs.get_variable_names.Nodup →
      ∀ (n : String) (col : List Int), (n, col) ∈ subs.columns →
        ((NaturalDataMask_bindings.create heap parent subs).2.lookupFrame
            (NaturalDataMask_bindings.create heap parent subs).1.mask_bindings).bind
          (fun f => f.findB n) = some (Binding.value (Value.vecV col))) := by
  refine ⟨fun _ _ => rfl, fun _ => rfl, fun heap parent subs hnd n col hmem => ?_⟩
  have hcreate : (NaturalDataMask_bindings.create heap parent subs).2 =
      subs.columns.foldl (fun h p =>
        h.setBinding heap.next p.1 (Binding.value (Value.vecV p.2)))
        ⟨(heap.next, ⟨some parent, []⟩) :: heap.frames, heap.next + 1⟩ := rfl
  have hid : (NaturalDataMask_bindings.create heap parent subs).1.mask_bindings
      = heap.next := rfl
  rw [hcreate, hid, REnv.lookupFrame_foldl_setBinding]
  have hbase : (REnv.lookupFrame
      ⟨(heap.next, ⟨some parent, []⟩) :: heap.frames, heap.next + 1⟩ heap.next) =
      some ⟨some parent, []⟩ := by
    simp [REnv.lookupFrame, findFrame]
  rw [hbase]
  simp only [Option.map_some', Option.some_bind]
  exact frameFold_findB_mem subs.columns _ n col hmem hnd

theorem C6_witness :
    sampleSubsets.get_variable_names.Nodup ∧
    ("y", [1, 2, 3, 4, 5]) ∈ sampleSubsets.columns ∧
    ((NaturalDataMask_bindings.create baseEnv.2 baseEnv.1 sampleSubsets).2.lookupFrame
        (NaturalDataMask_bindings.create baseEnv.2 baseEnv.1 sampleSubsets).1.mask_bindings).bind
      (fun f => f.findB "y") =
      some (Binding.value (Value.vecV [1, 2, 3, 4, 5])) :=
  ⟨by decide, by decide,
    C6_natural_single_scope.2.2 baseEnv.2 baseEnv.1 sampleSubsets (by decide)
      "y" [1, 2, 3, 4, 5] (by decide)⟩

/-- A sample engine that, as a side effect of evaluation, defines a helper
binding in the evaluation scope (as user expressions may). -/
def definingEngine (n : String) (v : Value) : Engine := fun _ e h =>
  (Except.ok v, h.setBinding e n (Binding.value v))

/-- C7: `eval` never resets the evaluation scope: the engine's heap is
returned verbatim and the overscope identity is kept; `evalPrep` leaves
every overscope binding other than the two metadata scalars untouched
(those two are overwritten on each call, and the only other per-group
invalidation is of the materialized bindings that `update` clears in
`mask_resolved`); hence a binding defined in the overscope as a side
effect of one `eval` is still present after the next call's `evalPrep`. -/
theorem C7_overscope_retention :
    (∀ (engine : Engine) (m : DataMask) (heap : REnv) (expr : RExpr)
      (idx : SlicingIndex),
      (DataMask.eval engine m heap expr idx).2.2 =
        (engine expr m.overscope (m.evalPrep heap idx).2).2 ∧
      (DataMask.eval engine m heap expr idx).2.1.overscope = m.overscope) ∧
    (∀ (m : DataMask) (heap : REnv) (idx : SlicingIndex) (n : String),
      n ≠ groupSizeName → n ≠ groupNumberName →
      m.overscope ≠ m.bindings.mask_resolved →
      (((m.evalPrep heap idx).2.lookupFrame m.overscope).bind
          (fun f => f.findB n)) =
        ((heap.lookupFrame m.overscope).bind (fun f => f.findB n))) ∧
    (∀ (m : DataMask) (heap : REnv) (idx : SlicingIndex),
      (heap.lookupFrame m.overscope).isSome = true →
      ((m.evalPrep heap idx).2.lookupFrame m.overscope).bind
          (fun f => f.findB groupSizeName) =
        some (Binding.value (Value.intV (idx.size : Int)))) ∧
    (∀ (m : DataMask) (heap : REnv) (expr : RExpr)
      (idx1 idx2 : SlicingIndex) (n : String) (v : Value),
      n ≠ groupSizeName → n ≠ groupNumberName →
      m.overscope ≠ m.bindings.mask_resolved →
      (heap.lookupFrame m.overscope).isSome = true →
      (((DataMask.eval (definingEngine n v) m heap expr idx1).2.1.evalPrep
          (DataMask.eval (definingEngine n v) m heap expr idx1).2.2
          idx2).2.lookupFrame m.overscope).bind (fun f => f.findB n) =
        some (Binding.value v)) := by
  refine ⟨fun _ _ _ _ _ => ⟨rfl, rfl⟩,
    fun m heap idx n h1 h2 h3 => DataMask.evalPrep_preserves m heap idx n h1 h2 h3,
    fun m heap idx hf => (DataMask.evalPrep_metadata_reads m heap idx hf).1,
    fun m heap expr idx1 idx2 n v h1 h2 h3 hf => ?_⟩
  have hpres := DataMask.evalPrep_preserves
    (DataMask.eval (definingEngine n v) m heap expr idx1).2.1
    (DataMask.eval (definingEngine n v) m heap expr idx1).2.2 idx2 n h1 h2
    (by exact h3)
  have hsome : ((m.evalPrep heap idx1).2.lookupFrame m.overscope).isSome
      = true := by
    rw [DataMask.evalPrep_lookupFrame_isSome]
    exact hf
  obtain ⟨f, hfeq⟩ := Option.isSome_iff_exists.mp hsome
  have h2nd : ((((m.evalPrep heap idx1).2).setBinding m.overscope n
      (Binding.value v)).lookupFrame m.overscope).bind
      (fun f => f.findB n) = some (Binding.value v) := by
    rw [REnv.lookupFrame_setBinding_self, hfeq]
    exact EnvFrame.findB_insertB_self f n (Binding.value v)
  exact hpres.trans h2nd

theorem C7_witness :
    ("helper" ≠ groupSizeName) ∧ ("helper" ≠ groupNumberName) ∧
    (sampleMask.1.overscope ≠ sampleMask.1.bindings.mask_resolved) ∧
    ((sampleMask.2.lookupFrame sampleMask.1.overscope).isSome = true) ∧
    (((DataMask.eval (definingEngine "helper" (Value.intV 42)) sampleMask.1
        sampleMask.2 "e" sampleIdx).2.1.evalPrep
        (DataMask.eval (definingEngine "helper" (Value.intV 42)) sampleMask.1
          sampleMask.2 "e" sampleIdx).2.2
        ⟨1, [1]⟩).2.lookupFrame sampleMask.1.overscope).bind
      (fun f => f.findB "helper") = some (Binding.value (Value.intV 42)) :=
  ⟨by decide, by decide, by decide, by decide,
    C7_overscope_retention.2.2.2 sampleMask.1 sampleMask.2 "e" sampleIdx
      ⟨1, [1]⟩ "helper" (Value.intV 42) (by decide) (by decide) (by decide)
      (by decide)⟩

def sampleNat : NaturalDataMask × REnv :=
  NaturalDataMask.create baseEnv.2 sampleSubsets baseEnv.1

def oddIdx : SlicingIndex := ⟨7, [0, 1]⟩

/-- C10: on the single-group fast path the binding layer ignores the
index (`evalPrep` leaves the mask state unchanged), yet the two metadata
scalars written by every `eval` call are computed from the index passed to
that very call — its row count and its group ordinal plus one — so an
inconsistent index is observed as that index's metadata, not the
dataset's; and the engine result is still returned verbatim. -/
theorem C10_fast_path_metadata_from_index :
    (∀ (m : NaturalDataMask) (heap : REnv) (idx : SlicingIndex),
      (m.evalPrep heap idx).1 = m) ∧
    (∀ (m : NaturalDataMask) (heap : REnv) (idx : SlicingIndex),
      (heap.lookupFrame m.overscope).isSome = true →
      (((m.evalPrep heap idx).2.lookupFrame m.overscope).bind
          (fun f => f.findB groupSizeName) =
        some (Binding.value (Value.intV (idx.size : Int)))) ∧
      (((m.evalPrep heap idx).2.lookupFrame m.overscope).bind
          (fun f => f.findB groupNumberName) =
        some (Binding.value (Value.intV ((idx.group : Int) + 1))))) ∧
    (∀ (engine : Engine) (m : NaturalDataMask) (heap : REnv) (expr : RExpr)
      (idx : SlicingIndex),
      (NaturalDataMask.eval engine m heap expr idx).1 =
        (engine expr m.overscope (m.evalPrep heap idx).2).1) :=
  ⟨fun _ _ _ => rfl,
    fun m heap idx hf => naturalPrep_metadata_reads m heap idx hf,
    fun _ _ _ _ _ => rfl⟩

theorem C10_witness :
    (sampleNat.2.lookupFrame sampleNat.1.overscope).isSome = true ∧
    ((sampleNat.1.evalPrep sampleNat.2 oddIdx).2.lookupFrame
        sampleNat.1.overscope).bind (fun f => f.findB groupSizeName) =
      some (Binding.value (Value.intV 2)) ∧
    ((sampleNat.1.evalPrep sampleNat.2 oddIdx).2.lookupFrame
        sampleNat.1.overscope).bind (fun f => f.findB groupNumberName) =
      some (Binding.value (Value.intV 8)) :=
  ⟨by decide,
    (C10_fast_path_metadata_from_index.2.1 sampleNat.1 sampleNat.2 oddIdx
      (by decide)).1,
    (C10_fast_path_metadata_from_index.2.1 sampleNat.1 sampleNat.2 oddIdx
      (by decide)).2⟩
